import Mathlib

/-!
Shallow embedding of the animal-store server (`src/server.js`): the in-memory
record store, the query filter, the id lookup, the record validator, and the
create/persist path, together with theorems checking the specification's
claims against this embedding.

JavaScript-specific behaviour is modelled explicitly:
  - truthiness tests (`if (query.diet)`, `!animal.name`) regard the empty
    string, `0`, `null`/`undefined` and `false` as falsy, and every array
    (even the empty one) as truthy;
  - `===` between a string and a non-string value is `false`;
  - a missing object property reads as `undefined` (here: `Option.none`).
-/

/-- A JavaScript value, as far as the validator and routes inspect one. -/
inductive JsVal where
  | vstr (s : String)
  | vnum (n : Int)
  | vbool (b : Bool)
  | varr (elems : List JsVal)
  | vnull

/-- JavaScript truthiness of a value. -/
def JsVal.truthy : JsVal → Bool
  | JsVal.vstr s => s != ""
  | JsVal.vnum n => n != 0
  | JsVal.vbool b => b
  | JsVal.varr _ => true
  | JsVal.vnull => false

/-- Truthiness of a possibly-missing property (`undefined` is falsy). -/
def otruthy : Option JsVal → Bool
  | none => false
  | some v => v.truthy

/-- `typeof x === 'string'` on a possibly-missing property. -/
def isStr : Option JsVal → Bool
  | some (JsVal.vstr _) => true
  | _ => false

/-- `Array.isArray(x)` on a possibly-missing property. -/
def isArr : Option JsVal → Bool
  | some (JsVal.varr _) => true
  | _ => false

/-- An animal record as held in the store: the persisted data model gives
every record string-typed `id`, `name`, `species`, `diet` and a string
sequence `personalityTraits`. -/
structure Animal where
  id : String
  name : String
  species : String
  diet : String
  personalityTraits : List String
deriving DecidableEq, Repr

/-- A query-string value as delivered by the HTTP layer: a single string or
a sequence of strings. -/
inductive QVal where
  | vstr (s : String)
  | varr (elems : List String)
deriving DecidableEq, Repr

/-- JavaScript truthiness of a query value: the empty string is falsy,
every array is truthy. -/
def QVal.qtruthy : QVal → Bool
  | QVal.vstr s => s != ""
  | QVal.varr _ => true

/-- `===` comparison of a query value against a record's string field:
string-to-string is equality, array-to-string is `false`. -/
def QVal.eqStr : QVal → String → Bool
  | QVal.vstr s, t => s == t
  | QVal.varr _, _ => false

/-- A query object: an association of keys to query values. -/
abbrev Query : Type := List (String × QVal)

/-- Property read `query.key` (a JS object has at most one binding per key;
the first binding wins). -/
def qget (query : Query) (key : String) : Option QVal :=
  List.lookup key query

/-- `src/server.js` lines 48-55: a single string value for
`personalityTraits` is placed into a one-element array; an array is used
as is. -/
def traitsArrayOf : QVal → List String
  | QVal.vstr s => [s]
  | QVal.varr l => l

/-- `filterByQuery` (`src/server.js` lines 44-76), translated clause by
clause. Each recognized key is consulted with a truthiness guard; the
`personalityTraits` criterion loops over the requested traits, narrowing
the running result by one `filter` per trait; `diet`, `species` and `name`
compare with `===`. -/
def filterByQuery (query : Query) (animalsArray : List Animal) : List Animal :=
  let filteredResults := animalsArray
  let filteredResults :=
    match qget query "personalityTraits" with
    | some qpt =>
      if qpt.qtruthy then
        let personalityTraitsArray := traitsArrayOf qpt
        personalityTraitsArray.foldl
          (fun acc trait =>
            acc.filter (fun animal => animal.personalityTraits.contains trait))
          filteredResults
      else filteredResults
    | none => filteredResults
  let filteredResults :=
    match qget query "diet" with
    | some qd =>
      if qd.qtruthy then
        filteredResults.filter (fun animal => qd.eqStr animal.diet)
      else filteredResults
    | none => filteredResults
  let filteredResults :=
    match qget query "species" with
    | some qs =>
      if qs.qtruthy then
        filteredResults.filter (fun animal => qs.eqStr animal.species)
      else filteredResults
    | none => filteredResults
  let filteredResults :=
    match qget query "name" with
    | some qn =>
      if qn.qtruthy then
        filteredResults.filter (fun animal => qn.eqStr animal.name)
      else filteredResults
    | none => filteredResults
  filteredResults

/-- `findById` (`src/server.js` lines 78-81): `filter(...)[0]`, where `[0]`
of an empty array is `undefined` (here `none`). -/
def findById (id : String) (animalsArray : List Animal) : Option Animal :=
  (animalsArray.filter (fun animal => animal.id == id)).head?

/-- A candidate record as submitted to the POST route: each inspected
property is either absent or some JS value. -/
structure Candidate where
  name : Option JsVal
  species : Option JsVal
  diet : Option JsVal
  personalityTraits : Option JsVal

/-- `validateAnimal` (`src/server.js` lines 95-113): four guarded rejections,
each a truthiness test (`!animal.f`) followed by a type test. -/
def validateAnimal (animal : Candidate) : Bool :=
  if !(otruthy animal.name) || !(isStr animal.name) then false
  else if !(otruthy animal.species) || !(isStr animal.species) then false
  else if !(otruthy animal.diet) || !(isStr animal.diet) then false
  else if !(otruthy animal.personalityTraits) || !(isArr animal.personalityTraits) then false
  else true

/-- One hexadecimal digit, lower case, as `JSON.stringify` emits in
`\u00XX` escapes. -/
def hexDigit (n : Nat) : String :=
  if n < 10 then toString n
  else if n = 10 then "a" else if n = 11 then "b" else if n = 12 then "c"
  else if n = 13 then "d" else if n = 14 then "e" else "f"

/-- `JSON.stringify` escaping of a single character. -/
def jsonEscapeChar (c : Char) : String :=
  if c = '"' then "\\\""
  else if c = '\\' then "\\\\"
  else if c = '\n' then "\\n"
  else if c = '\t' then "\\t"
  else if c = '\r' then "\\r"
  else if c = Char.ofNat 8 then "\\b"
  else if c = Char.ofNat 12 then "\\f"
  else if c.toNat < 32 then "\\u00" ++ hexDigit (c.toNat / 16) ++ hexDigit (c.toNat % 16)
  else String.singleton c

/-- `JSON.stringify` of a string value. -/
def jsonQuote (s : String) : String :=
  "\"" ++ String.join (s.toList.map jsonEscapeChar) ++ "\""

/-- `JSON.stringify` of the `personalityTraits` array nested at depth 3
of the envelope, with 2-space indentation. -/
def stringifyTraits (ts : List String) : String :=
  match ts with
  | [] => "[]"
  | _ =>
    "[\n" ++ String.intercalate ",\n" (ts.map (fun t => "        " ++ jsonQuote t)) ++
    "\n      ]"

/-- `JSON.stringify` of one animal object nested at depth 2 of the
envelope, with 2-space indentation. -/
def stringifyAnimal (a : Animal) : String :=
  "    \x7b\n" ++
  "      \"id\": " ++ jsonQuote a.id ++ ",\n" ++
  "      \"name\": " ++ jsonQuote a.name ++ ",\n" ++
  "      \"species\": " ++ jsonQuote a.species ++ ",\n" ++
  "      \"diet\": " ++ jsonQuote a.diet ++ ",\n" ++
  "      \"personalityTraits\": " ++ stringifyTraits a.personalityTraits ++ "\n" ++
  "    \x7d"

/-- `JSON.stringify({ animals: animalsArray }, null, 2)`
(`src/server.js` line 88): the whole collection wrapped in an `animals`
envelope, 2-space indentation. -/
def stringifyEnvelope (animalsArray : List Animal) : String :=
  match animalsArray with
  | [] => "\x7b\n  \"animals\": []\n\x7d"
  | _ =>
    "\x7b\n  \"animals\": [\n" ++
    String.intercalate ",\n" (animalsArray.map stringifyAnimal) ++
    "\n  ]\n\x7d"

/-- The server's mutable state: the in-memory `animals` array and the
content of the persisted file `data/animals.json`. -/
structure ServerState where
  animals : List Animal
  file : String
deriving DecidableEq, Repr

/-- `createNewAnimal` (`src/server.js` lines 83-93): push the record onto
the array, synchronously overwrite the persisted file with the serialized
envelope of the whole array, and return the record. -/
def createNewAnimal (body : Animal) (s : ServerState) : Animal × ServerState :=
  let animal := body
  let newAnimals := s.animals ++ [animal]
  (animal, { animals := newAnimals, file := stringifyEnvelope newAnimals })

/-- A well-typed request body for the POST route: an animal payload
without an id. -/
structure NewBody where
  name : String
  species : String
  diet : String
  personalityTraits : List String
deriving DecidableEq, Repr

/-- The JS object a `NewBody` denotes, as the validator sees it. -/
def NewBody.toCandidate (b : NewBody) : Candidate :=
  { name := some (JsVal.vstr b.name)
  , species := some (JsVal.vstr b.species)
  , diet := some (JsVal.vstr b.diet)
  , personalityTraits := some (JsVal.varr (b.personalityTraits.map JsVal.vstr)) }

/-- `req.body.id = animals.length.toString()` (`src/server.js` line 169):
the body with the assigned id attached. -/
def NewBody.withId (b : NewBody) (id : String) : Animal :=
  { id := id, name := b.name, species := b.species, diet := b.diet
  , personalityTraits := b.personalityTraits }

/-- Outcome of the POST route: the JSON-echoed record, or a 400 response. -/
inductive PostResult where
  | created (animal : Animal)
  | badRequest (msg : String)
deriving DecidableEq, Repr

/-- The POST `/api/animals` route (`src/server.js` lines 167-180): assign
the id from the pre-insertion array length, validate, and either reject
with a 400 message or create and persist the record. -/
def postAnimal (body : NewBody) (s : ServerState) : PostResult × ServerState :=
  let bodyWithId := body.withId (toString s.animals.length)
  if !validateAnimal (NewBody.toCandidate body) then
    (PostResult.badRequest "The animal is not properly formatted.", s)
  else
    let (animal, s2) := createNewAnimal bodyWithId s
    (PostResult.created animal, s2)

/-- What the `personalityTraits` clause of `filterByQuery` requires of a
record: if a truthy value is supplied, every requested trait must occur in
the record's `personalityTraits`; otherwise no constraint. -/
def traitsPass (query : Query) (a : Animal) : Bool :=
  match qget query "personalityTraits" with
  | some qpt =>
    if qpt.qtruthy then
      (traitsArrayOf qpt).all (fun trait => a.personalityTraits.contains trait)
    else true
  | none => true

/-- What one exact-match clause of `filterByQuery` requires of a record
field: if a truthy value is supplied it must `===`-match the field;
otherwise no constraint. -/
def fieldPass (o : Option QVal) (s : String) : Bool :=
  match o with
  | some qv => if qv.qtruthy then qv.eqStr s else true
  | none => true

/-- The conjunction of all four clauses of `filterByQuery`. -/
def matchesQuery (query : Query) (a : Animal) : Bool :=
  traitsPass query a && fieldPass (qget query "diet") a.diet &&
    fieldPass (qget query "species") a.species && fieldPass (qget query "name") a.name

/-- The per-trait filter loop of `filterByQuery` is the single filter that
demands every requested trait. -/
theorem traits_foldl (ts : List String) (l : List Animal) :
    List.foldl
      (fun acc trait => acc.filter (fun animal => animal.personalityTraits.contains trait))
      l ts
      = l.filter (fun animal => ts.all (fun trait => animal.personalityTraits.contains trait)) := by
  induction ts generalizing l with
  | nil => simp
  | cons t ts ih =>
    simp only [List.foldl_cons, ih, List.filter_filter, List.all_cons]
    exact List.filter_congr (fun x _ => Bool.and_comm _ _)

/-- Master characterization: `filterByQuery` is one pass of `List.filter`
with the conjunction of its four clauses. -/
theorem filterByQuery_eq_filter (query : Query) (l : List Animal) :
    filterByQuery query l = l.filter (fun a => matchesQuery query a) := by
  rcases hpt : qget query "personalityTraits" with _ | qpt <;>
    rcases hd : qget query "diet" with _ | qd <;>
      rcases hs : qget query "species" with _ | qs <;>
        rcases hn : qget query "name" with _ | qn <;>
          simp only [filterByQuery, matchesQuery, traitsPass, fieldPass, hpt, hd, hs, hn] <;>
          (try split_ifs) <;>
          simp only [traits_foldl, List.filter_filter, Bool.true_and, Bool.and_true,
            List.filter_true] <;>
          first
            | rfl
            | exact List.filter_congr (fun x _ => by
                simp only [Bool.and_comm, Bool.and_left_comm, Bool.and_assoc])

/-- An animal record with a possibly-missing `personalityTraits` property,
for examining the unguarded `animal.personalityTraits.indexOf(trait)` read
at `src/server.js` line 59. -/
structure AnimalL where
  id : String
  name : String
  species : String
  diet : String
  personalityTraits : Option (List String)
deriving DecidableEq, Repr

/-- One pass of `filter(animal => animal.personalityTraits.indexOf(trait) !== -1)`
over loose records: a record lacking `personalityTraits` makes the callback
throw (`undefined.indexOf`), modelled as the error result. -/
def traitFilterL (trait : String) : List AnimalL → Except String (List AnimalL)
  | [] => Except.ok []
  | a :: rest =>
    match a.personalityTraits with
    | none => Except.error "TypeError: cannot read properties of undefined"
    | some ts =>
      match traitFilterL trait rest with
      | Except.error e => Except.error e
      | Except.ok r => Except.ok (if ts.contains trait then a :: r else r)

/-- The `forEach` loop over the requested traits (`src/server.js`
lines 57-61) on loose records: the first throwing pass aborts the loop. -/
def traitsFoldL (traits : List String) (l : List AnimalL) : Except String (List AnimalL) :=
  match traits with
  | [] => Except.ok l
  | t :: ts =>
    match traitFilterL t l with
    | Except.error e => Except.error e
    | Except.ok r => traitsFoldL ts r

/-- `filterByQuery` over loose records: identical to `filterByQuery` except
that the `personalityTraits` clause can throw; the remaining clauses only
read string fields and cannot fail. -/
def filterByQueryL (query : Query) (animalsArray : List AnimalL) : Except String (List AnimalL) :=
  let step :=
    match qget query "personalityTraits" with
    | some qpt =>
      if qpt.qtruthy then traitsFoldL (traitsArrayOf qpt) animalsArray
      else Except.ok animalsArray
    | none => Except.ok animalsArray
  match step with
  | Except.error e => Except.error e
  | Except.ok filteredResults =>
    let filteredResults :=
      match qget query "diet" with
      | some qd =>
        if qd.qtruthy then filteredResults.filter (fun animal => qd.eqStr animal.diet)
        else filteredResults
      | none => filteredResults
    let filteredResults :=
      match qget query "species" with
      | some qs =>
        if qs.qtruthy then filteredResults.filter (fun animal => qs.eqStr animal.species)
        else filteredResults
      | none => filteredResults
    let filteredResults :=
      match qget query "name" with
      | some qn =>
        if qn.qtruthy then filteredResults.filter (fun animal => qn.eqStr animal.name)
        else filteredResults
      | none => filteredResults
    Except.ok filteredResults

/-- When every record carries a `personalityTraits` sequence, one trait
pass succeeds and returns a selection of the input records. -/
theorem traitFilterL_ok (trait : String) (l : List AnimalL)
    (h : ∀ a ∈ l, (a.personalityTraits).isSome = true) :
    ∃ r, traitFilterL trait l = Except.ok r ∧ ∀ a ∈ r, a ∈ l := by
  induction l with
  | nil => exact ⟨[], rfl, by simp⟩
  | cons a rest ih =>
    obtain ⟨ts, hts⟩ := Option.isSome_iff_exists.mp (h a (by simp))
    obtain ⟨r, hr, hmem⟩ := ih (fun x hx => h x (by simp [hx]))
    refine ⟨if ts.contains trait then a :: r else r, ?_, ?_⟩
    · simp only [traitFilterL, hts, hr]
    · intro x hx
      by_cases hc : ts.contains trait = true
      · rw [if_pos hc] at hx
        rcases List.mem_cons.mp hx with h1 | h1
        · simp [h1]
        · simp [hmem x h1]
      · rw [if_neg hc] at hx
        simp [hmem x hx]

/-- When every record carries a `personalityTraits` sequence, the whole
trait loop succeeds. -/
theorem traitsFoldL_ok (traits : List String) (l : List AnimalL)
    (h : ∀ a ∈ l, (a.personalityTraits).isSome = true) :
    ∃ r, traitsFoldL traits l = Except.ok r ∧ ∀ a ∈ r, a ∈ l := by
  induction traits generalizing l with
  | nil => exact ⟨l, rfl, fun a ha => ha⟩
  | cons t ts ih =>
    obtain ⟨r, hr, hmem⟩ := traitFilterL_ok t l h
    obtain ⟨r2, hr2, hmem2⟩ := ih r (fun a ha => h a (hmem a ha))
    exact ⟨r2, by simp only [traitsFoldL, hr, hr2], fun a ha => hmem a (hmem2 a ha)⟩

/-- The matcher the specification describes for `filterByQuery`: every
requested trait must occur in the record's traits, and each supplied
`diet` / `species` / `name` string must equal the record's field exactly. -/
def matchesSpec (query : Query) (a : Animal) : Bool :=
  (match qget query "personalityTraits" with
   | some v => (traitsArrayOf v).all (fun trait => a.personalityTraits.contains trait)
   | none => true) &&
  (match qget query "diet" with
   | some (QVal.vstr d) => d == a.diet
   | some (QVal.varr _) => false
   | none => true) &&
  (match qget query "species" with
   | some (QVal.vstr sp) => sp == a.species
   | some (QVal.varr _) => false
   | none => true) &&
  (match qget query "name" with
   | some (QVal.vstr n) => n == a.name
   | some (QVal.varr _) => false
   | none => true)

/-- Seed-style demonstration records. -/
def rex : Animal :=
  { id := "0", name := "Rex", species := "Dog", diet := "omnivore"
  , personalityTraits := ["loyal"] }

/-- Seed-style demonstration record with two traits. -/
def milo : Animal :=
  { id := "1", name := "Milo", species := "Cat", diet := "carnivore"
  , personalityTraits := ["aloof", "independent"] }

/-- C1: for a query whose `personalityTraits` value is the empty string,
`filterByQuery` does not normalize it to the one-element sequence `[""]`
and filter with it: the record `rex`, whose traits do not contain `""`,
is kept anyway, because the truthiness guard treats `""` as absent. -/
theorem c1_empty_string_trait_counterexample :
    filterByQuery [("personalityTraits", QVal.vstr "")] [rex]
      ≠ [rex].filter (fun a =>
          (traitsArrayOf (QVal.vstr "")).all (fun trait => a.personalityTraits.contains trait)) := by
  decide

/-- C1 (amended: the `personalityTraits` value must be truthy, i.e. a
non-empty string or an array): with no other recognized key supplied,
`filterByQuery` normalizes a single string to a one-element sequence and
keeps exactly the records containing every requested trait — the
intersection, not the union, of the per-trait matches. -/
theorem c1_traits_filter_conjunction (query : Query) (v : QVal) (l : List Animal)
    (hv : qget query "personalityTraits" = some v) (htr : v.qtruthy = true)
    (hd : qget query "diet" = none) (hs : qget query "species" = none)
    (hn : qget query "name" = none) :
    filterByQuery query l
      = l.filter (fun a =>
          (traitsArrayOf v).all (fun trait => a.personalityTraits.contains trait)) := by
  rw [filterByQuery_eq_filter]
  apply List.filter_congr
  intro x _
  simp [matchesQuery, traitsPass, fieldPass, hv, htr, hd, hs, hn]

/-- C1 witness: filtering `[rex, milo]` by the trait sequence
`["aloof", "independent"]` keeps exactly the records with both traits. -/
theorem c1_traits_filter_conjunction_witness :
    filterByQuery [("personalityTraits", QVal.varr ["aloof", "independent"])] [rex, milo]
      = [rex, milo].filter (fun a =>
          (traitsArrayOf (QVal.varr ["aloof", "independent"])).all
            (fun trait => a.personalityTraits.contains trait)) :=
  c1_traits_filter_conjunction _ _ _ (by decide) (by decide) (by decide) (by decide)
    (by decide)

/-- C5: a supplied `diet` criterion that is the empty string is not matched
by exact string equality: `rex`, whose diet is not `""`, is kept anyway,
because the truthiness guard skips the clause. -/
theorem c5_empty_string_diet_counterexample :
    filterByQuery [("diet", QVal.vstr "")] [rex] = [rex] ∧ (rex.diet == "") = false := by
  decide

/-- C5 (amended: each supplied `diet` / `species` / `name` criterion must
be a non-empty string, and a supplied `personalityTraits` value truthy):
`filterByQuery` returns the records satisfying all supplied recognized
criteria conjunctively — by exact string equality on `diet`, `species`
and `name` — as a subsequence of the store, in original order, without
introducing duplicates. -/
theorem c5_filter_conjunctive_subsequence (query : Query) (l : List Animal)
    (hpt : ∀ v, qget query "personalityTraits" = some v → v.qtruthy = true)
    (hd : ∀ v, qget query "diet" = some v → ∃ d, v = QVal.vstr d ∧ d ≠ "")
    (hs : ∀ v, qget query "species" = some v → ∃ sp, v = QVal.vstr sp ∧ sp ≠ "")
    (hn : ∀ v, qget query "name" = some v → ∃ n, v = QVal.vstr n ∧ n ≠ "") :
    filterByQuery query l = l.filter (fun a => matchesSpec query a) ∧
      List.Sublist (filterByQuery query l) l := by
  refine ⟨?_, by rw [filterByQuery_eq_filter]; exact List.filter_sublist _⟩
  rw [filterByQuery_eq_filter]
  apply List.filter_congr
  intro x _
  have goal1 : traitsPass query x
      = (match qget query "personalityTraits" with
         | some v => (traitsArrayOf v).all (fun trait => x.personalityTraits.contains trait)
         | none => true) := by
    rcases h1 : qget query "personalityTraits" with _ | v
    · simp [traitsPass, h1]
    · simp [traitsPass, h1, hpt v h1]
  have goal2 : fieldPass (qget query "diet") x.diet
      = (match qget query "diet" with
         | some (QVal.vstr d) => d == x.diet
         | some (QVal.varr _) => false
         | none => true) := by
    rcases h2 : qget query "diet" with _ | v
    · simp [fieldPass, h2]
    · obtain ⟨d, rfl, hd'⟩ := hd v h2
      simp [fieldPass, QVal.qtruthy, QVal.eqStr, hd']
  have goal3 : fieldPass (qget query "species") x.species
      = (match qget query "species" with
         | some (QVal.vstr sp) => sp == x.species
         | some (QVal.varr _) => false
         | none => true) := by
    rcases h3 : qget query "species" with _ | v
    · simp [fieldPass, h3]
    · obtain ⟨sp, rfl, hs'⟩ := hs v h3
      simp [fieldPass, QVal.qtruthy, QVal.eqStr, hs']
  have goal4 : fieldPass (qget query "name") x.name
      = (match qget query "name" with
         | some (QVal.vstr n) => n == x.name
         | some (QVal.varr _) => false
         | none => true) := by
    rcases h4 : qget query "name" with _ | v
    · simp [fieldPass, h4]
    · obtain ⟨n, rfl, hn'⟩ := hn v h4
      simp [fieldPass, QVal.qtruthy, QVal.eqStr, hn']
  simp only [matchesQuery, matchesSpec, goal1, goal2, goal3, goal4]

/-- C5 witness: filtering `[rex, milo]` by `diet=omnivore` returns exactly
the matching record, a subsequence of the store. -/
theorem c5_filter_conjunctive_subsequence_witness :
    (filterByQuery [("diet", QVal.vstr "omnivore")] [rex, milo]
      = [rex, milo].filter (fun a => matchesSpec [("diet", QVal.vstr "omnivore")] a)) ∧
      List.Sublist (filterByQuery [("diet", QVal.vstr "omnivore")] [rex, milo]) [rex, milo] :=
  c5_filter_conjunctive_subsequence _ _
    (by intro v hv; simp [qget, List.lookup] at hv)
    (by intro v hv; exact ⟨"omnivore", by simpa [qget, List.lookup] using hv.symm, by decide⟩)
    (by intro v hv; simp [qget, List.lookup] at hv)
    (by intro v hv; simp [qget, List.lookup] at hv)

/-- C7: `findById` returns the first record whose `id` equals the input,
and the absent value `none` — not a failure — when no record matches. -/
theorem c7_findById_first_match (id : String) (l : List Animal) :
    findById id l = l.find? (fun animal => animal.id == id) := by
  simp [findById]

/-- C8: a query in which none of the four recognized keys is bound leaves
the store unchanged and in order, whatever other keys it carries. -/
theorem c8_no_recognized_keys_identity (query : Query) (l : List Animal)
    (hpt : qget query "personalityTraits" = none) (hd : qget query "diet" = none)
    (hs : qget query "species" = none) (hn : qget query "name" = none) :
    filterByQuery query l = l := by
  simp [filterByQuery, hpt, hd, hs, hn]

/-- C8 witness: a query holding only the unrecognized key `legs` returns
the full store unchanged. -/
theorem c8_no_recognized_keys_identity_witness :
    filterByQuery [("legs", QVal.vstr "4")] [rex, milo] = [rex, milo] :=
  c8_no_recognized_keys_identity _ _ (by decide) (by decide) (by decide) (by decide)

/-- A candidate in which `name` is `""` but present and string-typed, the
other three fields well-formed. -/
def emptyNameCandidate : Candidate :=
  { name := some (JsVal.vstr ""), species := some (JsVal.vstr "Lion")
  , diet := some (JsVal.vstr "carnivore")
  , personalityTraits := some (JsVal.varr [JsVal.vstr "aloof"]) }

/-- C3: a candidate whose `name` is the empty string — present and of
string type, `species`, `diet`, `personalityTraits` well-formed — is
rejected by `validateAnimal`, because `!animal.name` is true for `""`. -/
theorem c3_empty_string_rejected_counterexample :
    isStr emptyNameCandidate.name = true ∧ isStr emptyNameCandidate.species = true ∧
      isStr emptyNameCandidate.diet = true ∧ isArr emptyNameCandidate.personalityTraits = true ∧
      validateAnimal emptyNameCandidate = false := by
  decide

/-- C3 (amended: the three string fields must moreover be non-empty — the
truthiness guard rejects the empty string): a candidate whose `name`,
`species` and `diet` are present, string-typed and non-empty and whose
`personalityTraits` is an array (of any contents, even empty) passes
`validateAnimal`. -/
theorem c3_validator_accepts_nonempty_typed (c : Candidate) (n sp d : String)
    (ts : List JsVal)
    (hn : c.name = some (JsVal.vstr n)) (hn' : n ≠ "")
    (hs : c.species = some (JsVal.vstr sp)) (hs' : sp ≠ "")
    (hd : c.diet = some (JsVal.vstr d)) (hd' : d ≠ "")
    (hp : c.personalityTraits = some (JsVal.varr ts)) :
    validateAnimal c = true := by
  simp [validateAnimal, hn, hs, hd, hp, otruthy, isStr, isArr, JsVal.truthy, hn', hs', hd']

/-- The spec's acceptance example: Leo the lion. -/
def leoCandidate : Candidate :=
  { name := some (JsVal.vstr "Leo"), species := some (JsVal.vstr "Lion")
  , diet := some (JsVal.vstr "carnivore")
  , personalityTraits := some (JsVal.varr [JsVal.vstr "aloof"]) }

/-- C3 witness: Leo passes the validator. -/
theorem c3_validator_accepts_nonempty_typed_witness :
    validateAnimal leoCandidate = true :=
  c3_validator_accepts_nonempty_typed leoCandidate "Leo" "Lion" "carnivore"
    [JsVal.vstr "aloof"] rfl (by decide) rfl (by decide) rfl (by decide) rfl

/-- C2: on a validated body, the POST route creates a record whose id is
the decimal string of the store's length before insertion, appends exactly
that record, and returns it. -/
theorem c2_create_assigns_length_id (s : ServerState) (body : NewBody)
    (h : validateAnimal body.toCandidate = true) :
    (postAnimal body s).1 = PostResult.created (body.withId (toString s.animals.length)) ∧
      (postAnimal body s).2.animals
        = s.animals ++ [body.withId (toString s.animals.length)] ∧
      (body.withId (toString s.animals.length)).id = toString s.animals.length := by
  simp [postAnimal, createNewAnimal, h, NewBody.withId]

/-- A store already holding five records, echoing the spec's length-5
example. -/
def fiveState : ServerState :=
  { animals :=
      [rex, milo,
        { id := "2", name := "Gus", species := "Goat", diet := "herbivore"
        , personalityTraits := ["calm"] },
        { id := "3", name := "Iggy", species := "Iguana", diet := "herbivore"
        , personalityTraits := ["lazy"] },
        { id := "4", name := "Zoe", species := "Zebra", diet := "herbivore"
        , personalityTraits := ["swift"] }]
  , file := "" }

/-- A validated body to insert. -/
def gillBody : NewBody :=
  { name := "Gill", species := "Fish", diet := "omnivore", personalityTraits := ["quiet"] }

/-- C2 witness: inserting into a store of length 5 creates, appends and
returns the record with id `"5"`. -/
theorem c2_create_assigns_length_id_witness :
    (postAnimal gillBody fiveState).1
      = PostResult.created (gillBody.withId (toString fiveState.animals.length)) ∧
      (postAnimal gillBody fiveState).2.animals
        = fiveState.animals ++ [gillBody.withId (toString fiveState.animals.length)] ∧
      (gillBody.withId (toString fiveState.animals.length)).id
        = toString fiveState.animals.length :=
  c2_create_assigns_length_id fiveState gillBody (by decide)

/-- C4: after a successful insert the persisted file holds exactly the
2-space-indented serialization of the `animals` envelope around the whole
new in-memory sequence — file and memory are in sync. -/
theorem c4_file_sync_after_create (s : ServerState) (body : NewBody)
    (h : validateAnimal body.toCandidate = true) :
    (postAnimal body s).2.file = stringifyEnvelope ((postAnimal body s).2.animals) ∧
      (postAnimal body s).2.animals
        = s.animals ++ [body.withId (toString s.animals.length)] := by
  simp [postAnimal, createNewAnimal, h]

/-- A store holding just Rex, with its file in sync. -/
def rexState : ServerState := { animals := [rex], file := stringifyEnvelope [rex] }

/-- The spec's end-to-end body: Milo the cat, without an id. -/
def miloBody : NewBody :=
  { name := "Milo", species := "Cat", diet := "carnivore"
  , personalityTraits := ["aloof", "independent"] }

/-- C4 witness: after inserting Milo into the Rex store, the file equals
the serialized envelope of the new sequence. -/
theorem c4_file_sync_after_create_witness :
    (postAnimal miloBody rexState).2.file
      = stringifyEnvelope ((postAnimal miloBody rexState).2.animals) ∧
      (postAnimal miloBody rexState).2.animals
        = rexState.animals ++ [miloBody.withId (toString rexState.animals.length)] :=
  c4_file_sync_after_create rexState miloBody (by decide)

/-- A candidate record after the route's id assignment: the id string
together with the four loosely-typed properties the validator inspects.
Any of the four may be missing or carry a value of any JS type. -/
structure CandidateI where
  id : String
  name : Option JsVal
  species : Option JsVal
  diet : Option JsVal
  personalityTraits : Option JsVal

/-- Forgetting the id, as the validator (which never reads `id`) sees the
object. -/
def CandidateI.toCandidate (c : CandidateI) : Candidate :=
  { name := c.name, species := c.species, diet := c.diet
  , personalityTraits := c.personalityTraits }

/-- `req.body.id = animals.length.toString()` (`src/server.js` line 169)
on a loose body. -/
def Candidate.withId (c : Candidate) (id : String) : CandidateI :=
  { id := id, name := c.name, species := c.species, diet := c.diet
  , personalityTraits := c.personalityTraits }

/-- Indentation of `n` spaces. -/
def indentStr (n : Nat) : String :=
  String.mk (List.replicate n ' ')

/-- `JSON.stringify` of an arbitrary JS value at base indentation `indent`
under the 2-space option: strings quoted and escaped, numbers and booleans
and `null` printed literally, arrays broken over lines with elements
indented two further spaces. -/
def stringifyJsVal : Nat → JsVal → String
  | _, JsVal.vstr s => jsonQuote s
  | _, JsVal.vnum n => toString n
  | _, JsVal.vbool b => cond b "true" "false"
  | _, JsVal.vnull => "null"
  | _, JsVal.varr [] => "[]"
  | indent, JsVal.varr es =>
    "[\n" ++
    String.intercalate ",\n"
      (es.attach.map (fun e => indentStr (indent + 2) ++ stringifyJsVal (indent + 2) e.1)) ++
    "\n" ++ indentStr indent ++ "]"
decreasing_by
  have := List.sizeOf_lt_of_mem e.2
  simp only [JsVal.varr.sizeOf_spec]
  omega

/-- The enumerable properties of a stored candidate in emission order;
`id`, assigned by the route, comes last. -/
def candidateFields (c : CandidateI) : List (String × Option JsVal) :=
  [("name", c.name), ("species", c.species), ("diet", c.diet),
   ("personalityTraits", c.personalityTraits), ("id", some (JsVal.vstr c.id))]

/-- `JSON.stringify` of one stored candidate object at base indentation
`indent`: properties holding `undefined` (absent) are skipped, as
`JSON.stringify` does. -/
def stringifyCandidate (indent : Nat) (c : CandidateI) : String :=
  let entries := (candidateFields c).filterMap (fun kv =>
    match kv.2 with
    | some v =>
      some (indentStr (indent + 2) ++ jsonQuote kv.1 ++ ": " ++ stringifyJsVal (indent + 2) v)
    | none => none)
  match entries with
  | [] => "\x7b\x7d"
  | _ => "\x7b\n" ++ String.intercalate ",\n" entries ++ "\n" ++ indentStr indent ++ "\x7d"

/-- `JSON.stringify({ animals: animalsArray }, null, 2)` over the loose
store. -/
def stringifyEnvelopeC (animalsArray : List CandidateI) : String :=
  match animalsArray with
  | [] => "\x7b\n  \"animals\": []\n\x7d"
  | _ =>
    "\x7b\n  \"animals\": [\n" ++
    String.intercalate ",\n" (animalsArray.map (fun c => stringifyCandidate 4 c)) ++
    "\n  ]\n\x7d"

/-- The server's state over the loose store: the array holds whatever
objects were pushed, validated or seeded, with no typing assumption
beyond the id the route assigns. -/
structure ServerStateC where
  animals : List CandidateI
  file : String

/-- Outcome of the POST route over loose bodies. -/
inductive PostResultC where
  | created (animal : CandidateI)
  | badRequest (msg : String)

/-- `createNewAnimal` over the loose store: push the body and
synchronously rewrite the file with the serialized envelope of the whole
array. -/
def createNewAnimalC (body : CandidateI) (s : ServerStateC) : CandidateI × ServerStateC :=
  let animal := body
  let newAnimals := s.animals ++ [animal]
  (animal, { animals := newAnimals, file := stringifyEnvelopeC newAnimals })

/-- The POST `/api/animals` route (`src/server.js` lines 167-180) over an
arbitrary loose body: assign the id, validate the same object, and either
answer 400 — touching nothing — or create and persist. -/
def postAnimalC (body : Candidate) (s : ServerStateC) : PostResultC × ServerStateC :=
  let bodyWithId := body.withId (toString s.animals.length)
  if !validateAnimal bodyWithId.toCandidate then
    (PostResultC.badRequest "The animal is not properly formatted.", s)
  else
    let (animal, s2) := createNewAnimalC bodyWithId s
    (PostResultC.created animal, s2)

/-- C9: every candidate that fails validation — be a field missing,
wrong-typed or empty — yields the 400 message and leaves the whole server
state, in-memory array and persisted file alike, untouched: the record
writer is never invoked on the failure path. -/
theorem c9_invalid_leaves_state_unchanged (s : ServerStateC) (body : Candidate)
    (h : validateAnimal body = false) :
    (postAnimalC body s).1 = PostResultC.badRequest "The animal is not properly formatted." ∧
      (postAnimalC body s).2 = s := by
  have hb : validateAnimal (CandidateI.toCandidate
      (body.withId (toString s.animals.length))) = false := h
  simp [postAnimalC, hb]

/-- The spec's rejection example: species, diet and traits fine, `name`
missing altogether. -/
def namelessCandidate : Candidate :=
  { name := none, species := some (JsVal.vstr "Lion")
  , diet := some (JsVal.vstr "carnivore")
  , personalityTraits := some (JsVal.varr [JsVal.vstr "aloof"]) }

/-- A loose store holding one seeded record, its file in sync. -/
def seedStateC : ServerStateC :=
  { animals := [{ id := "0", name := some (JsVal.vstr "Rex")
                , species := some (JsVal.vstr "Dog"), diet := some (JsVal.vstr "omnivore")
                , personalityTraits := some (JsVal.varr [JsVal.vstr "loyal"]) }]
  , file := stringifyEnvelopeC
      [{ id := "0", name := some (JsVal.vstr "Rex")
       , species := some (JsVal.vstr "Dog"), diet := some (JsVal.vstr "omnivore")
       , personalityTraits := some (JsVal.varr [JsVal.vstr "loyal"]) }] }

/-- C9 witness: the name-less candidate is rejected and the state — array
and file — is exactly what it was. -/
theorem c9_invalid_leaves_state_unchanged_witness :
    (postAnimalC namelessCandidate seedStateC).1
      = PostResultC.badRequest "The animal is not properly formatted." ∧
      (postAnimalC namelessCandidate seedStateC).2 = seedStateC :=
  c9_invalid_leaves_state_unchanged seedStateC namelessCandidate rfl

/-- A store whose single record has the non-sequential id `"1"`: ids are
pairwise distinct, yet `"1"` is exactly the id the next insert will be
assigned. -/
def shiftedState : ServerState :=
  { animals :=
      [{ id := "1", name := "Rex", species := "Dog", diet := "omnivore"
       , personalityTraits := ["loyal"] }]
  , file := "" }

/-- C6: id uniqueness alone does not make the fresh lookup return the
created record: in a length-1 store whose record already carries id `"1"`,
inserting Milo assigns him id `"1"` as well, and `findById "1"` then
returns the first match — the old record, not the created one. -/
theorem c6_unique_ids_insufficient_counterexample :
    shiftedState.animals.Pairwise (fun a b => a.id ≠ b.id) ∧
      validateAnimal miloBody.toCandidate = true ∧
      (postAnimal miloBody shiftedState).1 = PostResult.created (miloBody.withId "1") ∧
      findById (miloBody.withId "1").id (postAnimal miloBody shiftedState).2.animals
        = some { id := "1", name := "Rex", species := "Dog", diet := "omnivore"
               , personalityTraits := ["loyal"] } ∧
      ({ id := "1", name := "Rex", species := "Dog", diet := "omnivore"
       , personalityTraits := ["loyal"] } : Animal) ≠ miloBody.withId "1" := by
  refine ⟨?_, by decide, by decide, by decide, by decide⟩
  simp [shiftedState]

/-- C6 (amended: besides id uniqueness, no existing record's id may equal
the decimal string of the store's length — which the canonical sequential
id assignment guarantees): looking up the freshly assigned id after a
successful create returns exactly the created record. -/
theorem c6_lookup_fresh_id_returns_created (s : ServerState) (body : NewBody)
    (_huniq : s.animals.Pairwise (fun a b => a.id ≠ b.id))
    (hval : validateAnimal body.toCandidate = true)
    (hfresh : ∀ a ∈ s.animals, a.id ≠ toString s.animals.length) :
    (postAnimal body s).1 = PostResult.created (body.withId (toString s.animals.length)) ∧
      findById (body.withId (toString s.animals.length)).id (postAnimal body s).2.animals
        = some (body.withId (toString s.animals.length)) := by
  have hpost : (postAnimal body s).2.animals
      = s.animals ++ [body.withId (toString s.animals.length)] := by
    simp [postAnimal, createNewAnimal, hval]
  refine ⟨by simp [postAnimal, createNewAnimal, hval], ?_⟩
  rw [hpost]
  unfold findById
  rw [List.filter_append]
  have h1 : s.animals.filter
      (fun animal => animal.id == (body.withId (toString s.animals.length)).id) = [] := by
    rw [List.filter_eq_nil_iff]
    intro a ha
    simp only [NewBody.withId]
    simpa using hfresh a ha
  rw [h1]
  simp [NewBody.withId]

/-- C6 witness: inserting Milo into the canonical Rex store (ids `["0"]`)
and looking up the fresh id `"1"` returns Milo. -/
theorem c6_lookup_fresh_id_returns_created_witness :
    (postAnimal miloBody rexState).1
      = PostResult.created (miloBody.withId (toString rexState.animals.length)) ∧
      findById (miloBody.withId (toString rexState.animals.length)).id
          (postAnimal miloBody rexState).2.animals
        = some (miloBody.withId (toString rexState.animals.length)) :=
  c6_lookup_fresh_id_returns_created rexState miloBody (by simp [rexState]) (by decide)
    (by decide)

/-- C10: under the data-model invariant that every stored record carries a
`personalityTraits` sequence, the unguarded
`animal.personalityTraits.indexOf(trait)` read in the filter never fails —
the error branch of the loose filter is unreachable, for every query. -/
theorem c10_traits_access_never_fails (query : Query) (l : List AnimalL)
    (h : ∀ a ∈ l, (a.personalityTraits).isSome = true) :
    ∃ r, filterByQueryL query l = Except.ok r := by
  rcases hpt : qget query "personalityTraits" with _ | v
  · simp only [filterByQueryL, hpt]
    exact ⟨_, rfl⟩
  · cases htr : v.qtruthy with
    | true =>
      obtain ⟨r, hr, -⟩ := traitsFoldL_ok (traitsArrayOf v) l h
      simp only [filterByQueryL, hpt, htr, if_true, hr]
      exact ⟨_, rfl⟩
    | false =>
      simp only [filterByQueryL, hpt, htr, Bool.false_eq_true, if_false]
      exact ⟨_, rfl⟩

/-- A loose store in which every record has its traits sequence. -/
def looseStore : List AnimalL :=
  [{ id := "0", name := "Rex", species := "Dog", diet := "omnivore"
   , personalityTraits := some ["loyal"] },
   { id := "1", name := "Milo", species := "Cat", diet := "carnivore"
   , personalityTraits := some ["aloof"] }]

/-- C10 witness: filtering the loose store by a trait succeeds. -/
theorem c10_traits_access_never_fails_witness :
    ∃ r, filterByQueryL [("personalityTraits", QVal.vstr "loyal")] looseStore
      = Except.ok r :=
  c10_traits_access_never_fails _ _ (by decide)
